import Mathlib

/-!
Formal model of the watermarking pipeline in src/watermark_script.py.

The script is a single linear pipeline: load a watermark image, adjust its
opacity, walk a source directory tree, and for each file whose lowercased
name ends with a recognized image extension, composite the watermark over
the image and save the result at the mirrored destination path.

The embedding below follows the source function by function:
  adjust_opacity          (lines 44-72)   pixel-level alpha scaling
  validate_arguments      (lines 92-111)  argument checks, sys.exit(1)
  load_watermark          (lines 113-139) fatal watermark load
  get_watermark_position  (lines 141-170) anchor geometry
  process_image           (lines 172-249) per-file compositing, try/except
  main                    (lines 251-279) walk loop and extension filter
  top level               (lines 281-289) exit-code handling

Numeric conventions: Python ints are ℤ (or ℕ where the source value is
nonnegative), Python floats are modelled as ℚ, Python int() truncation on a
nonnegative value is the floor, and Python // is floor division (Int.fdiv).
Filenames are lists of characters; filesystem paths are lists of path
components.
-/

namespace Watermark

/-! ### Filenames and the extension allow-list (main, lines 266-277) -/

/-- A filename, as its list of characters. -/
abbrev FileName := List Char

/-- A filesystem path, as its list of components (os.path.join adds one
component per joined piece). -/
abbrev FsPath := List FileName

/-- Python str.lower, character by character (filenames here are ASCII). -/
def lowerName (name : FileName) : FileName := name.map Char.toLower

/-- The tuple IMAGE_EXTENSIONS bound in main (line 266). -/
def IMAGE_EXTENSIONS : List FileName :=
  [".jpg".data, ".jpeg".data, ".png".data, ".gif".data, ".bmp".data, ".tiff".data, ".webp".data]

/-- The walker's per-file test at line 272: file.lower().endswith(IMAGE_EXTENSIONS),
Python tuple-endswith being true when some listed suffix matches. -/
def is_image_file (name : FileName) : Bool :=
  IMAGE_EXTENSIONS.any (fun ext => decide (ext <:+ lowerName name))

/-- Spec-side definition for the walker claim, following the spec's words:
the filename extension of a name, read as the suffix starting at the last
dot, empty when the name has no dot. The code-side test is is_image_file;
the walker claim compares the two. -/
def file_extension : FileName → FileName
  | [] => []
  | c :: cs => if c = '.' ∧ '.' ∉ cs then '.' :: cs else file_extension cs

/-! ### Python numeric helpers -/

/-- Python int() applied to a nonnegative float: truncation, i.e. the floor.
All uses below are on nonnegative values. -/
def py_int (q : ℚ) : Nat := ⌊q⌋₊

/-- Line 195: wm_width = int(im_width * wm_ratio). -/
def wm_width_of (im_width : Nat) (size : ℚ) : Nat :=
  py_int ((im_width : ℚ) * size)

/-- Lines 200-201: w_percent = wm_width / float(watermark.size[0]);
wm_height = int(float(watermark.size[1]) * float(w_percent)). -/
def wm_height_of (wm : Nat × Nat) (wm_width : Nat) : Nat :=
  py_int ((wm.2 : ℚ) * ((wm_width : ℚ) / (wm.1 : ℚ)))

/-! ### get_watermark_position (lines 141-170) -/

/-- Lines 141-170. Coordinates are Python ints (they may go negative when the
watermark is wider than the image); Python // is floor division, Int.fdiv. -/
def get_watermark_position (position : String) (image_size watermark_size : Int × Int) :
    Int × Int :=
  let im_width := image_size.1
  let im_height := image_size.2
  let wm_width := watermark_size.1
  let wm_height := watermark_size.2
  let margin : Int := 10
  if position = "top-left" then (margin, margin)
  else if position = "top-right" then (im_width - wm_width - margin, margin)
  else if position = "bottom-left" then (margin, im_height - wm_height - margin)
  else if position = "bottom-right" then
    (im_width - wm_width - margin, im_height - wm_height - margin)
  else if position = "center" then
    ((im_width - wm_width).fdiv 2, (im_height - wm_height).fdiv 2)
  else (im_width - wm_width - margin, im_height - wm_height - margin)

/-! ### Mode and format restoration (process_image, lines 223-231) -/

/-- Line 225. -/
def non_alpha_formats : List String := ["JPEG", "JPG", "BMP", "WEBP"]

/-- Python str.upper, character by character (format names are ASCII). -/
def upperString (s : String) : String := ⟨s.data.map Char.toUpper⟩

/-- Lines 226-231: the color mode the watermarked image is converted to
before saving, starting from the RGBA composite. -/
def restore_mode (original_format original_mode : String) : String :=
  if upperString original_format ∈ non_alpha_formats then "RGB"
  else if original_mode ≠ "RGBA" then original_mode
  else "RGBA"

/-! ### The per-file data the geometry model needs -/

/-- A decoded source image: size after EXIF transposition (line 188), plus
the mode and format recorded at lines 184-185. Images opened from files
always carry a format string. -/
structure SrcImage where
  width : Nat
  height : Nat
  mode : String
  format : String
deriving DecidableEq

/-- What Image.open(image_path) does for a given file (lines 182, 244-249):
succeeds, or raises one of the exception classes the except arms name. -/
inductive OpenResult where
  | ok (im : SrcImage)
  | unidentifiedError
  | permissionError
  | otherError
deriving DecidableEq

/-- A file discovered by the walker: the directory that holds it, its name,
how opening it behaves, and whether writing the output succeeds (a failing
write raises PermissionError at line 241). -/
structure FileEntry where
  dir : FsPath
  name : FileName
  openResult : OpenResult
  writeOk : Bool
deriving DecidableEq

/-- The parsed command-line arguments the pipeline reads. -/
structure Args where
  source_dir : FsPath
  dest_dir : FsPath
  position : String
  opacity : ℚ
  size : ℚ
deriving DecidableEq

/-- How one process_image call ends: a saved file (with its path, final
color mode and save format), the zero-width skip at line 198, or a logged
and swallowed exception (lines 244-249). -/
inductive ProcOutcome where
  | saved (path : FsPath) (mode : String) (fmt : String)
  | skipped
  | errorLogged
deriving DecidableEq

/-- os.path.relpath(dir, base) for a dir lying beneath base, which is how
process_image uses it (the walker only hands it paths under source_dir). -/
def relpath (dir base : FsPath) : FsPath := dir.drop base.length

/-- os.makedirs(path, exist_ok=True) acting on the set of existing
directories: creating an existing directory is a no-op, never an error. -/
def makedirs (fs : List FsPath) (p : FsPath) : List FsPath :=
  if p ∈ fs then fs else p :: fs

/-- process_image (lines 172-249). The state threaded through is the set of
directories that exist; the result reports how the call ended. The whole
body sits in try/except arms that swallow every exception (lines 244-249),
so the function is total and an exception never propagates.

Pillow detail: Image.resize rejects a zero target dimension with
ValueError, so a computed zero height lands in the except-Exception arm;
the wm_width == 0 case returns at line 198 before resize. -/
def process_image (fs : List FsPath) (entry : FileEntry) (wm : Nat × Nat) (args : Args) :
    List FsPath × ProcOutcome :=
  match entry.openResult with
  | .unidentifiedError => (fs, .errorLogged)
  | .permissionError => (fs, .errorLogged)
  | .otherError => (fs, .errorLogged)
  | .ok im =>
    let wm_width := wm_width_of im.width args.size
    if wm_width = 0 then (fs, .skipped)
    else
      let wm_height := wm_height_of wm wm_width
      if wm_height = 0 then (fs, .errorLogged)
      else
        let _position := get_watermark_position args.position
          ((im.width : Int), (im.height : Int)) ((wm_width : Int), (wm_height : Int))
        let dest_dir_path := args.dest_dir ++ relpath entry.dir args.source_dir
        let fs1 := makedirs fs dest_dir_path
        let dest_image_path := dest_dir_path ++ [entry.name]
        if entry.writeOk then
          (fs1, .saved dest_image_path (restore_mode im.format im.mode) im.format)
        else (fs1, .errorLogged)

/-- The directory a process_image call creates, when it reaches makedirs. -/
def created_dir (entry : FileEntry) (wm : Nat × Nat) (args : Args) : Option FsPath :=
  match entry.openResult with
  | .ok im =>
    let wm_width := wm_width_of im.width args.size
    if wm_width = 0 then none
    else if wm_height_of wm wm_width = 0 then none
    else some (args.dest_dir ++ relpath entry.dir args.source_dir)
  | _ => none

/-- The walk loop of main (lines 270-277): call process_image on every file
whose name passes is_image_file, skip the rest, and record one outcome per
processed file. -/
def main_walk (fs : List FsPath) (files : List FileEntry) (wm : Nat × Nat) (args : Args) :
    List FsPath × List (FileEntry × ProcOutcome) :=
  match files with
  | [] => (fs, [])
  | f :: rest =>
    if is_image_file f.name then
      let r := process_image fs f wm args
      let tail := main_walk r.1 rest wm args
      (tail.1, (f, r.2) :: tail.2)
    else main_walk fs rest wm args

/-! ### Pixel-level model of adjust_opacity (lines 44-72) -/

/-- A Pillow image restricted to the data adjust_opacity manipulates: the
mode, the color content as RGB triples, and the alpha band when the decoded
image carries one (none for images with no alpha information). -/
structure BandImage where
  mode : String
  rgb : List (Nat × Nat × Nat)
  alpha : Option (List Nat)
deriving DecidableEq

/-- The alpha band of an image once in RGBA form: its own band, or the fully
opaque 255 band Pillow materialises when converting an alpha-less image. -/
def alpha_band (im : BandImage) : List Nat :=
  match im.alpha with
  | some a => a
  | none => im.rgb.map (fun _ => 255)

/-- im.convert to RGBA (line 62): four bands, color content kept. -/
def pil_convert_rgba (im : BandImage) : BandImage :=
  { mode := "RGBA", rgb := im.rgb, alpha := some (alpha_band im) }

/-- ImageEnhance.Brightness(alpha).enhance(opacity) on one alpha value
(line 68): Pillow blends toward black, truncating to an integer. -/
def enhance_brightness (o : ℚ) (a : Nat) : Nat := py_int ((a : ℚ) * o)

/-- adjust_opacity (lines 44-72). The assert at line 56 exits the process
with code 1 when the opacity is out of range; otherwise the image is
converted to RGBA if needed, the alpha band is scaled, and the bands are
merged back. -/
def adjust_opacity (im : BandImage) (opacity : ℚ) : Except Nat BandImage :=
  if ¬ (0 ≤ opacity ∧ opacity ≤ 1) then .error 1
  else
    let im1 := if im.mode ≠ "RGBA" then pil_convert_rgba im else im
    .ok { mode := "RGBA", rgb := im1.rgb,
          alpha := some ((alpha_band im1).map (enhance_brightness opacity)) }

/-! ### Top level: validation, watermark load, exit codes -/

/-- Everything the run depends on: how the argument checks come out, how the
watermark opens (its size when it does), the files the walker finds, and
whether an interrupt or an unexpected exception hits the run. -/
structure Env where
  source_is_dir : Bool
  watermark_is_file : Bool
  args : Args
  wmOpen : Option (Nat × Nat)
  files : List FileEntry
  interrupted : Bool
  unexpected : Bool
deriving DecidableEq

/-- How main terminates abnormally: sys.exit (a SystemExit, which the
except-Exception arm at line 287 does not catch), a KeyboardInterrupt, or
an unhandled exception. -/
inductive PyTerm where
  | sysExit (code : Nat)
  | keyboardInterrupt
  | unhandled
deriving DecidableEq

/-- validate_arguments (lines 92-111): four checks in order, each failing
one calling sys.exit(1). -/
def validate_arguments (env : Env) : Except PyTerm Unit :=
  if ¬ env.source_is_dir then .error (.sysExit 1)
  else if ¬ env.watermark_is_file then .error (.sysExit 1)
  else if ¬ (0 ≤ env.args.opacity ∧ env.args.opacity ≤ 1) then .error (.sysExit 1)
  else if ¬ (0 < env.args.size ∧ env.args.size ≤ 1) then .error (.sysExit 1)
  else .ok ()

/-- load_watermark (lines 113-139): any failure to open or decode the
watermark calls sys.exit(1); then adjust_opacity re-asserts the opacity
range (line 56), also exiting with 1. Only the size travels into the
geometry model. -/
def load_watermark (env : Env) : Except PyTerm (Nat × Nat) :=
  match env.wmOpen with
  | none => .error (.sysExit 1)
  | some wm =>
    if ¬ (0 ≤ env.args.opacity ∧ env.args.opacity ≤ 1) then .error (.sysExit 1)
    else .ok wm

/-- main (lines 251-279): validate, load the watermark, then walk. The
interrupted and unexpected flags model a KeyboardInterrupt or an unhandled
exception striking during the walk. -/
def main (env : Env) : Except PyTerm (List FsPath × List (FileEntry × ProcOutcome)) :=
  match validate_arguments env with
  | .error e => .error e
  | .ok _ =>
    match load_watermark env with
    | .error e => .error e
    | .ok wm =>
      if env.interrupted then .error .keyboardInterrupt
      else if env.unexpected then .error .unhandled
      else .ok (main_walk [] env.files wm env.args)

/-- The per-file outcomes a run produces (empty when main never reaches the
walk). -/
def processed (env : Env) : List (FileEntry × ProcOutcome) :=
  match main env with
  | .ok r => r.2
  | .error _ => []

/-- The __main__ block (lines 281-289): a normal return exits 0; SystemExit
carries its code through the except arms (it is not an Exception);
KeyboardInterrupt and any other exception end in sys.exit(1). -/
def top_level (env : Env) : Nat :=
  match main env with
  | .ok _ => 0
  | .error (.sysExit c) => c
  | .error .keyboardInterrupt => 1
  | .error .unhandled => 1

/-- The spec-side validity predicate for the four argument checks. -/
def valid_args (env : Env) : Prop :=
  env.source_is_dir = true ∧ env.watermark_is_file = true ∧
  (0 ≤ env.args.opacity ∧ env.args.opacity ≤ 1) ∧
  (0 < env.args.size ∧ env.args.size ≤ 1)

instance (env : Env) : Decidable (valid_args env) := by
  unfold valid_args
  infer_instance

/-! ## Helper lemmas -/

theorem fdiv_two_floor (a : ℤ) : a.fdiv 2 = ⌊(a : ℚ) / 2⌋ := by
  rw [show ((2 : ℚ)) = ((2 : ℕ) : ℚ) by norm_num, show ((a : ℚ)) = ((a : ℤ) : ℚ) from rfl,
    Rat.floor_intCast_div_natCast, Int.fdiv_eq_ediv] <;> norm_num

theorem py_int_le {q : ℚ} (hq : 0 ≤ q) : (py_int q : ℚ) ≤ q := Nat.floor_le hq

theorem lt_py_int_add_one (q : ℚ) : q < (py_int q : ℚ) + 1 := Nat.lt_floor_add_one q

theorem alpha_band_convert (im : BandImage) : alpha_band (pil_convert_rgba im) = alpha_band im :=
  rfl

theorem suffix_iff_file_extension {rest : FileName} (hrest : '.' ∉ rest) (L : FileName) :
    ('.' :: rest) <:+ L ↔ file_extension L = '.' :: rest := by
  induction L with
  | nil =>
    constructor
    · intro h
      have := List.suffix_nil.mp h
      simp at this
    · intro h
      simp [file_extension] at h
  | cons c cs ih =>
    rw [List.suffix_cons_iff]
    by_cases hdot : '.' ∈ cs
    · have hfe : file_extension (c :: cs) = file_extension cs := by
        simp [file_extension, hdot]
      rw [hfe, ← ih]
      constructor
      · rintro (heq | hsuf)
        · injection heq with h1 h2
          exact absurd (h2 ▸ hdot) hrest
        · exact hsuf
      · exact Or.inr
    · by_cases hc : c = '.'
      · subst hc
        have hfe : file_extension ('.' :: cs) = '.' :: cs := by
          simp [file_extension, hdot]
        rw [hfe]
        constructor
        · rintro (heq | hsuf)
          · injection heq with _ h2
            rw [h2]
          · exact absurd (hsuf.subset (List.mem_cons_self _ _)) hdot
        · intro h
          injection h with _ h2
          exact Or.inl (by rw [h2])
      · have hfe : file_extension (c :: cs) = file_extension cs := by
          simp [file_extension, hc]
        rw [hfe, ← ih]
        constructor
        · rintro (heq | hsuf)
          · injection heq with h1 _
            exact absurd h1.symm hc
          · exact hsuf
        · exact Or.inr

theorem image_ext_shape :
    ∀ ext ∈ IMAGE_EXTENSIONS, ext ≠ [] ∧ ext.head? = some '.' ∧ '.' ∉ ext.tail := by decide

theorem is_image_file_iff_ext (name : FileName) :
    is_image_file name = true ↔ file_extension (lowerName name) ∈ IMAGE_EXTENSIONS := by
  rw [is_image_file, List.any_eq_true]
  constructor
  · rintro ⟨ext, hmem, hsuf⟩
    rw [decide_eq_true_eq] at hsuf
    obtain ⟨hne, hhead, htail⟩ := image_ext_shape ext hmem
    obtain ⟨c, t, rfl⟩ : ∃ c t, ext = c :: t := by
      cases ext with
      | nil => exact absurd rfl hne
      | cons c t => exact ⟨c, t, rfl⟩
    obtain rfl : c = '.' := by simpa using hhead
    rw [(suffix_iff_file_extension (by simpa using htail) (lowerName name)).mp hsuf]
    exact hmem
  · intro hmem
    obtain ⟨hne, hhead, htail⟩ := image_ext_shape _ hmem
    refine ⟨file_extension (lowerName name), hmem, ?_⟩
    rw [decide_eq_true_eq]
    cases hct : file_extension (lowerName name) with
    | nil => exact absurd hct hne
    | cons c t =>
      rw [hct] at hhead htail
      obtain rfl : c = '.' := by simpa using hhead
      exact (suffix_iff_file_extension (by simpa using htail) (lowerName name)).mpr hct

theorem process_image_snd_fs (fs fs' : List FsPath) (e : FileEntry) (wm : Nat × Nat)
    (a : Args) : (process_image fs e wm a).2 = (process_image fs' e wm a).2 := by
  cases h : e.openResult with
  | ok im =>
    by_cases h1 : wm_width_of im.width a.size = 0
    · simp [process_image, h, h1]
    · by_cases h2 : wm_height_of wm (wm_width_of im.width a.size) = 0
      · simp [process_image, h, h1, h2]
      · by_cases h3 : e.writeOk <;> simp [process_image, h, h1, h2, h3]
  | unidentifiedError => simp [process_image, h]
  | permissionError => simp [process_image, h]
  | otherError => simp [process_image, h]

theorem process_image_fst (fs : List FsPath) (e : FileEntry) (wm : Nat × Nat) (a : Args) :
    (process_image fs e wm a).1 =
      match created_dir e wm a with
      | some d => makedirs fs d
      | none => fs := by
  cases h : e.openResult with
  | ok im =>
    by_cases h1 : wm_width_of im.width a.size = 0
    · simp [process_image, created_dir, h, h1]
    · by_cases h2 : wm_height_of wm (wm_width_of im.width a.size) = 0
      · simp [process_image, created_dir, h, h1, h2]
      · by_cases h3 : e.writeOk <;> simp [process_image, created_dir, h, h1, h2, h3]
  | unidentifiedError => simp [process_image, created_dir, h]
  | permissionError => simp [process_image, created_dir, h]
  | otherError => simp [process_image, created_dir, h]

theorem mem_makedirs_self (fs : List FsPath) (p : FsPath) : p ∈ makedirs fs p := by
  unfold makedirs
  split
  · assumption
  · exact List.mem_cons_self _ _

theorem mem_makedirs_of_mem {fs : List FsPath} {q : FsPath} (p : FsPath) (h : q ∈ fs) :
    q ∈ makedirs fs p := by
  unfold makedirs
  split
  · exact h
  · exact List.mem_cons_of_mem _ h

theorem makedirs_of_mem {fs : List FsPath} {p : FsPath} (h : p ∈ fs) : makedirs fs p = fs :=
  if_pos h

theorem mem_main_walk_fst {q : FsPath} (files : List FileEntry) (fs : List FsPath)
    (wm : Nat × Nat) (a : Args) (h : q ∈ fs) : q ∈ (main_walk fs files wm a).1 := by
  induction files generalizing fs with
  | nil => exact h
  | cons f rest ih =>
    by_cases hf : is_image_file f.name = true
    · simp only [main_walk, hf, if_true]
      apply ih
      rw [process_image_fst]
      cases created_dir f wm a with
      | none => exact h
      | some d => exact mem_makedirs_of_mem d h
    · simp only [main_walk, hf, if_false]
      exact ih fs h

theorem created_dir_mem_walk {f : FileEntry} {files : List FileEntry} {d : FsPath}
    (wm : Nat × Nat) (a : Args) (fs : List FsPath) (hmem : f ∈ files)
    (himg : is_image_file f.name = true) (hd : created_dir f wm a = some d) :
    d ∈ (main_walk fs files wm a).1 := by
  induction files generalizing fs with
  | nil => cases hmem
  | cons g rest ih =>
    rcases List.mem_cons.mp hmem with rfl | htail
    · simp only [main_walk, himg, if_true]
      apply mem_main_walk_fst
      rw [process_image_fst, hd]
      exact mem_makedirs_self fs d
    · by_cases hg : is_image_file g.name = true
      · simp only [main_walk, hg, if_true]
        exact ih _ htail
      · simp only [main_walk, hg, if_false]
        exact ih fs htail

theorem main_walk_fst_saturated {files : List FileEntry} {fs : List FsPath} (wm : Nat × Nat)
    (a : Args)
    (h : ∀ f ∈ files, is_image_file f.name = true →
      ∀ d, created_dir f wm a = some d → d ∈ fs) :
    (main_walk fs files wm a).1 = fs := by
  induction files with
  | nil => rfl
  | cons f rest ih =>
    by_cases hf : is_image_file f.name = true
    · have hfst : (process_image fs f wm a).1 = fs := by
        rw [process_image_fst]
        cases hd : created_dir f wm a with
        | none => rfl
        | some d => exact makedirs_of_mem (h f (List.mem_cons_self _ _) hf d hd)
      simp only [main_walk, hf, if_true, hfst]
      exact ih fun g hg => h g (List.mem_cons_of_mem _ hg)
    · simp only [main_walk, hf, if_false]
      exact ih fun g hg => h g (List.mem_cons_of_mem _ hg)

theorem main_walk_idempotent (files : List FileEntry) (fs : List FsPath) (wm : Nat × Nat)
    (a : Args) :
    (main_walk (main_walk fs files wm a).1 files wm a).1 = (main_walk fs files wm a).1 := by
  apply main_walk_fst_saturated
  intro f hf himg d hd
  exact created_dir_mem_walk wm a fs hf himg hd

theorem main_walk_pairs_mem {files : List FileEntry} {fs : List FsPath} {wm : Nat × Nat}
    {a : Args} : ∀ pr ∈ (main_walk fs files wm a).2,
      pr.1 ∈ files ∧ is_image_file pr.1.name = true := by
  induction files generalizing fs with
  | nil => simp [main_walk]
  | cons f rest ih =>
    intro pr hpr
    by_cases hf : is_image_file f.name = true
    · simp only [main_walk, hf, if_true] at hpr
      rcases List.mem_cons.mp hpr with rfl | h2
      · exact ⟨List.mem_cons_self _ _, hf⟩
      · obtain ⟨h3, h4⟩ := ih pr h2
        exact ⟨List.mem_cons_of_mem _ h3, h4⟩
    · simp only [main_walk, hf, if_false] at hpr
      obtain ⟨h3, h4⟩ := ih pr hpr
      exact ⟨List.mem_cons_of_mem _ h3, h4⟩

theorem main_walk_complete {files : List FileEntry} {wm : Nat × Nat} {a : Args}
    {f : FileEntry} (hf : f ∈ files) (himg : is_image_file f.name = true) :
    ∀ fs, ∃ o, (f, o) ∈ (main_walk fs files wm a).2 := by
  induction files with
  | nil => cases hf
  | cons g rest ih =>
    intro fs
    rcases List.mem_cons.mp hf with rfl | htail
    · exact ⟨(process_image fs f wm a).2, by simp [main_walk, himg]⟩
    · by_cases hg : is_image_file g.name = true
      · obtain ⟨o, ho⟩ := ih htail (process_image fs g wm a).1
        exact ⟨o, by simp only [main_walk, hg, if_true]; exact List.mem_cons_of_mem _ ho⟩
      · obtain ⟨o, ho⟩ := ih htail fs
        exact ⟨o, by simp only [main_walk, hg, if_false]; exact ho⟩

/-! ## Claim theorems -/

/-- C1: get_watermark_position returns, for every image size and watermark
size, exactly the spec formulas with margin 10 for the five named anchors
(center using floored halving), and the bottom-right coordinate for any
other position string. -/
theorem claim_C1_positions (im_width im_height wm_width wm_height : Int) :
    get_watermark_position "top-left" (im_width, im_height) (wm_width, wm_height) = (10, 10) ∧
    get_watermark_position "top-right" (im_width, im_height) (wm_width, wm_height)
      = (im_width - wm_width - 10, 10) ∧
    get_watermark_position "bottom-left" (im_width, im_height) (wm_width, wm_height)
      = (10, im_height - wm_height - 10) ∧
    get_watermark_position "bottom-right" (im_width, im_height) (wm_width, wm_height)
      = (im_width - wm_width - 10, im_height - wm_height - 10) ∧
    get_watermark_position "center" (im_width, im_height) (wm_width, wm_height)
      = (⌊((im_width - wm_width : Int) : ℚ) / 2⌋, ⌊((im_height - wm_height : Int) : ℚ) / 2⌋) ∧
    (∀ position : String,
      position ∉ (["top-left", "top-right", "bottom-left", "bottom-right", "center"] :
        List String) →
      get_watermark_position position (im_width, im_height) (wm_width, wm_height)
        = (im_width - wm_width - 10, im_height - wm_height - 10)) := by
  refine ⟨rfl, rfl, rfl, rfl, ?_, ?_⟩
  · show ((im_width - wm_width).fdiv 2, (im_height - wm_height).fdiv 2) = _
    rw [fdiv_two_floor, fdiv_two_floor]
  · intro position hpos
    simp only [List.mem_cons, List.not_mem_nil, or_false, not_or] at hpos
    obtain ⟨h1, h2, h3, h4, h5⟩ := hpos
    simp [get_watermark_position, h1, h2, h3, h4, h5]

theorem claim_C1_positions_witness :
    get_watermark_position "top-left" (500, 300) (100, 100) = (10, 10) ∧
    get_watermark_position "oops" (500, 300) (100, 100) = (500 - 100 - 10, 300 - 100 - 10) :=
  ⟨(claim_C1_positions 500 300 100 100).1,
   (claim_C1_positions 500 300 100 100).2.2.2.2.2 "oops" (by decide)⟩

/-- C5: for any opacity o in the unit interval the overlay adjust_opacity
returns is RGBA, keeps the color content, and its alpha band is the original
alpha band (opaque default when the source had none) scaled pixelwise by o
within rounding tolerance; o = 0 zeroes the band and o = 1 keeps it. -/
theorem claim_C5_adjust_opacity (im : BandImage) (o : ℚ) (h0 : 0 ≤ o) (h1 : o ≤ 1) :
    ∃ out, adjust_opacity im o = Except.ok out ∧
      out.mode = "RGBA" ∧
      out.rgb = im.rgb ∧
      out.alpha = some ((alpha_band im).map (enhance_brightness o)) ∧
      (∀ a ∈ alpha_band im,
        (enhance_brightness o a : ℚ) ≤ (a : ℚ) * o ∧
          (a : ℚ) * o < (enhance_brightness o a : ℚ) + 1) ∧
      (o = 0 → (alpha_band im).map (enhance_brightness o) = (alpha_band im).map fun _ => 0) ∧
      (o = 1 → (alpha_band im).map (enhance_brightness o) = alpha_band im) := by
  have hcond : ¬ ¬ (0 ≤ o ∧ o ≤ 1) := by simp [h0, h1]
  have hbase : ∀ (im1 : BandImage), im1.rgb = im.rgb → alpha_band im1 = alpha_band im →
      ∃ out,
        Except.ok (ε := Nat) (BandImage.mk "RGBA" im1.rgb
          (some ((alpha_band im1).map (enhance_brightness o)))) = Except.ok out ∧
        out.mode = "RGBA" ∧
        out.rgb = im.rgb ∧
        out.alpha = some ((alpha_band im).map (enhance_brightness o)) ∧
        (∀ a ∈ alpha_band im,
          (enhance_brightness o a : ℚ) ≤ (a : ℚ) * o ∧
            (a : ℚ) * o < (enhance_brightness o a : ℚ) + 1) ∧
        (o = 0 → (alpha_band im).map (enhance_brightness o) = (alpha_band im).map fun _ => 0) ∧
        (o = 1 → (alpha_band im).map (enhance_brightness o) = alpha_band im) := by
    intro im1 hrgb halpha
    refine ⟨_, rfl, rfl, hrgb, by rw [halpha], ?_, ?_, ?_⟩
    · intro a _
      have ha : (0 : ℚ) ≤ (a : ℚ) * o := mul_nonneg (by positivity) h0
      exact ⟨py_int_le ha, lt_py_int_add_one _⟩
    · intro ho
      subst ho
      refine List.map_congr_left fun a _ => ?_
      simp [enhance_brightness, py_int]
    · intro ho
      subst ho
      conv_rhs => rw [← List.map_id (alpha_band im)]
      refine List.map_congr_left fun a _ => ?_
      simp [enhance_brightness, py_int]
  unfold adjust_opacity
  rw [if_neg hcond]
  by_cases hmode : im.mode ≠ "RGBA"
  · rw [if_pos hmode]
    exact hbase (pil_convert_rgba im) rfl (alpha_band_convert im)
  · rw [if_neg hmode]
    exact hbase im rfl rfl

theorem claim_C5_adjust_opacity_witness :
    (0 : ℚ) ≤ 1 / 2 ∧ (1 : ℚ) / 2 ≤ 1 ∧
    ∃ out,
      adjust_opacity { mode := "RGB", rgb := [(1, 2, 3)], alpha := none } ((1 : ℚ) / 2)
        = Except.ok out ∧
      out.mode = "RGBA" ∧
      out.rgb = [(1, 2, 3)] ∧
      out.alpha = some ((alpha_band { mode := "RGB", rgb := [(1, 2, 3)], alpha := none }).map
        (enhance_brightness ((1 : ℚ) / 2))) ∧
      (∀ a ∈ alpha_band { mode := "RGB", rgb := [(1, 2, 3)], alpha := none },
        (enhance_brightness ((1 : ℚ) / 2) a : ℚ) ≤ (a : ℚ) * ((1 : ℚ) / 2) ∧
          (a : ℚ) * ((1 : ℚ) / 2) < (enhance_brightness ((1 : ℚ) / 2) a : ℚ) + 1) ∧
      ((1 : ℚ) / 2 = 0 →
        (alpha_band { mode := "RGB", rgb := [(1, 2, 3)], alpha := none }).map
            (enhance_brightness ((1 : ℚ) / 2))
          = (alpha_band { mode := "RGB", rgb := [(1, 2, 3)], alpha := none }).map fun _ => 0) ∧
      ((1 : ℚ) / 2 = 1 →
        (alpha_band { mode := "RGB", rgb := [(1, 2, 3)], alpha := none }).map
            (enhance_brightness ((1 : ℚ) / 2))
          = alpha_band { mode := "RGB", rgb := [(1, 2, 3)], alpha := none }) :=
  ⟨by norm_num, by norm_num,
   claim_C5_adjust_opacity { mode := "RGB", rgb := [(1, 2, 3)], alpha := none } ((1 : ℚ) / 2)
     (by norm_num) (by norm_num)⟩

/-- C8: the target watermark height process_image computes (wm_height_of,
used in its resize call) is the overlay height scaled by the width ratio and
truncated, hence the aspect ratio is preserved within one pixel: the exact
scaled height lies in [wm_height, wm_height + 1). -/
theorem claim_C8_aspect_height (wm : Nat × Nat) (w : Nat) (how : 0 < wm.1) :
    wm_height_of wm w = ⌊((wm.2 : ℚ) * (w : ℚ)) / (wm.1 : ℚ)⌋₊ ∧
    (wm_height_of wm w : ℚ) ≤ ((wm.2 : ℚ) * (w : ℚ)) / (wm.1 : ℚ) ∧
    ((wm.2 : ℚ) * (w : ℚ)) / (wm.1 : ℚ) < (wm_height_of wm w : ℚ) + 1 := by
  have hrw : (wm.2 : ℚ) * ((w : ℚ) / (wm.1 : ℚ)) = ((wm.2 : ℚ) * (w : ℚ)) / (wm.1 : ℚ) :=
    (mul_div_assoc _ _ _).symm
  have hnn : (0 : ℚ) ≤ ((wm.2 : ℚ) * (w : ℚ)) / (wm.1 : ℚ) := by positivity
  refine ⟨?_, ?_, ?_⟩
  · rw [wm_height_of, py_int, hrw]
  · rw [wm_height_of, py_int, hrw]
    exact Nat.floor_le hnn
  · rw [wm_height_of, py_int, hrw]
    exact Nat.lt_floor_add_one _

theorem claim_C8_aspect_height_witness :
    wm_height_of (100, 40) 50 = ⌊(((100, 40).2 : ℚ) * (50 : ℚ)) / ((100, 40).1 : ℚ)⌋₊ ∧
    (wm_height_of (100, 40) 50 : ℚ) ≤ (((100, 40).2 : ℚ) * (50 : ℚ)) / ((100, 40).1 : ℚ) ∧
    (((100, 40).2 : ℚ) * (50 : ℚ)) / ((100, 40).1 : ℚ) < (wm_height_of (100, 40) 50 : ℚ) + 1 :=
  claim_C8_aspect_height (100, 40) 50 (by decide)

theorem restore_mode_of_non_alpha {fmt : String}
    (h : fmt ∈ (["JPEG", "BMP", "WEBP"] : List String)) (mode : String) :
    restore_mode fmt mode = "RGB" := by
  simp only [List.mem_cons, List.not_mem_nil, or_false] at h
  rcases h with rfl | rfl | rfl <;>
    · unfold restore_mode
      rw [if_pos (by decide)]

theorem restore_mode_of_alpha {fmt : String}
    (h : fmt ∈ (["PNG", "GIF", "TIFF"] : List String)) (mode : String) :
    restore_mode fmt mode = if mode ≠ "RGBA" then mode else "RGBA" := by
  simp only [List.mem_cons, List.not_mem_nil, or_false] at h
  rcases h with rfl | rfl | rfl <;>
    · unfold restore_mode
      rw [if_neg (by decide)]

theorem wm_width_500_eval : wm_width_of 500 1 = 500 := by norm_num [wm_width_of, py_int]

theorem wm_height_sq_eval : wm_height_of (100, 100) 500 = 500 := by
  norm_num [wm_height_of, py_int]

theorem wm_width_zero_eval : wm_width_of 0 1 = 0 := by norm_num [wm_width_of, py_int]

theorem restore_jpeg_p_eval : restore_mode "JPEG" "P" = "RGB" := by decide

theorem restore_png_rgba_eval : restore_mode "PNG" "RGBA" = "RGBA" := by decide

/-- C2: the target watermark width process_image computes is the floor of
image width times the size fraction; the file is skipped exactly when it is
zero, in which case nothing is written, no saved outcome is produced, the
walk continues with the remaining files, and a run whose arguments validate
still exits 0. -/
theorem claim_C2_zero_width_skip (fs : List FsPath) (f : FileEntry) (im : SrcImage)
    (wm : Nat × Nat) (args : Args) (rest : List FileEntry) (env : Env)
    (hopen : f.openResult = OpenResult.ok im) (hsz0 : 0 < args.size) (hsz1 : args.size ≤ 1) :
    wm_width_of im.width args.size = ⌊(im.width : ℚ) * args.size⌋₊ ∧
    ((process_image fs f wm args).2 = ProcOutcome.skipped ↔
      wm_width_of im.width args.size = 0) ∧
    (wm_width_of im.width args.size = 0 →
      (process_image fs f wm args).1 = fs ∧
      (∀ p m fo, (process_image fs f wm args).2 ≠ ProcOutcome.saved p m fo) ∧
      (is_image_file f.name = true →
        main_walk fs (f :: rest) wm args
          = ((main_walk fs rest wm args).1,
              (f, ProcOutcome.skipped) :: (main_walk fs rest wm args).2))) ∧
    (env.source_is_dir = true → env.watermark_is_file = true →
      0 ≤ env.args.opacity → env.args.opacity ≤ 1 →
      0 < env.args.size → env.args.size ≤ 1 →
      env.wmOpen = some wm → env.interrupted = false → env.unexpected = false →
      top_level env = 0) := by
  refine ⟨rfl, ?_, ?_, ?_⟩
  · by_cases h1 : wm_width_of im.width args.size = 0
    · simp [process_image, hopen, h1]
    · by_cases h2 : wm_height_of wm (wm_width_of im.width args.size) = 0
      · simp [process_image, hopen, h1, h2]
      · by_cases h3 : f.writeOk <;> simp [process_image, hopen, h1, h2, h3]
  · intro h1
    refine ⟨by simp [process_image, hopen, h1], ?_, ?_⟩
    · intro p m fo
      simp [process_image, hopen, h1]
    · intro himg
      have hproc : process_image fs f wm args = (fs, ProcOutcome.skipped) := by
        simp [process_image, hopen, h1]
      simp only [main_walk, himg, if_true, hproc]
  · intro e1 e2 e3 e4 e5 e6 e7 e8 e9
    simp [top_level, main, validate_arguments, load_watermark, e1, e2, e3, e4, e5, e6, e7,
      e8, e9]

theorem claim_C2_zero_width_skip_witness :
    ((process_image ([] : List FsPath)
        ⟨[], "a.png".data, OpenResult.ok ⟨0, 300, "RGBA", "PNG"⟩, true⟩ (100, 100)
        ⟨[], [], "bottom-right", 1, 1⟩).2 = ProcOutcome.skipped ↔
      wm_width_of 0 1 = 0) ∧
    top_level ⟨true, true, ⟨[], [], "bottom-right", 1, 1⟩, some (100, 100),
      [⟨[], "a.png".data, OpenResult.ok ⟨0, 300, "RGBA", "PNG"⟩, true⟩], false, false⟩ = 0 :=
  ⟨(claim_C2_zero_width_skip [] ⟨[], "a.png".data, OpenResult.ok ⟨0, 300, "RGBA", "PNG"⟩, true⟩
      ⟨0, 300, "RGBA", "PNG"⟩ (100, 100) ⟨[], [], "bottom-right", 1, 1⟩ []
      ⟨true, true, ⟨[], [], "bottom-right", 1, 1⟩, some (100, 100),
        [⟨[], "a.png".data, OpenResult.ok ⟨0, 300, "RGBA", "PNG"⟩, true⟩], false, false⟩
      rfl (by decide) (by decide)).2.1,
   (claim_C2_zero_width_skip [] ⟨[], "a.png".data, OpenResult.ok ⟨0, 300, "RGBA", "PNG"⟩, true⟩
      ⟨0, 300, "RGBA", "PNG"⟩ (100, 100) ⟨[], [], "bottom-right", 1, 1⟩ []
      ⟨true, true, ⟨[], [], "bottom-right", 1, 1⟩, some (100, 100),
        [⟨[], "a.png".data, OpenResult.ok ⟨0, 300, "RGBA", "PNG"⟩, true⟩], false, false⟩
      rfl (by decide) (by decide)).2.2.2
     rfl rfl (by decide) (by decide) (by decide) (by decide) rfl rfl rfl⟩

/-- C3: a successfully saved file keeps its original container format; its
mode is forced to opaque RGB when that format cannot carry alpha (JPEG, BMP,
WEBP), is converted back to the original mode when the format can carry
alpha and the original mode was not RGBA, and stays RGBA otherwise; a JPEG
source always saves as RGB JPEG. -/
theorem claim_C3_mode_format (fs : List FsPath) (f : FileEntry) (im : SrcImage)
    (wm : Nat × Nat) (args : Args) (p : FsPath) (m fo : String)
    (hopen : f.openResult = OpenResult.ok im)
    (hsave : (process_image fs f wm args).2 = ProcOutcome.saved p m fo) :
    fo = im.format ∧ m = restore_mode im.format im.mode ∧
    (im.format ∈ (["JPEG", "BMP", "WEBP"] : List String) → m = "RGB") ∧
    (im.format ∈ (["PNG", "GIF", "TIFF"] : List String) → im.mode ≠ "RGBA" → m = im.mode) ∧
    (im.format ∈ (["PNG", "GIF", "TIFF"] : List String) → im.mode = "RGBA" → m = "RGBA") ∧
    (im.format = "JPEG" → m = "RGB" ∧ fo = "JPEG") := by
  by_cases h1 : wm_width_of im.width args.size = 0
  · simp [process_image, hopen, h1] at hsave
  by_cases h2 : wm_height_of wm (wm_width_of im.width args.size) = 0
  · simp [process_image, hopen, h1, h2] at hsave
  by_cases h3 : f.writeOk
  case neg => simp [process_image, hopen, h1, h2, h3] at hsave
  simp only [process_image, hopen, h1, h2, h3, if_true, if_false, ite_false, ite_true,
    ProcOutcome.saved.injEq] at hsave
  obtain ⟨hp, hm, hfo⟩ := hsave
  have hm' : m = restore_mode im.format im.mode := hm.symm
  have hfo' : fo = im.format := hfo.symm
  subst hm' hfo'
  refine ⟨rfl, rfl, ?_, ?_, ?_, ?_⟩
  · intro hmem
    exact restore_mode_of_non_alpha hmem _
  · intro hmem hmode
    rw [restore_mode_of_alpha hmem, if_pos hmode]
  · intro hmem hmode
    rw [restore_mode_of_alpha hmem]
    simp [hmode]
  · intro hfmt
    refine ⟨?_, hfmt⟩
    rw [hfmt]
    exact restore_mode_of_non_alpha (by simp) _

theorem claim_C3_mode_format_witness :
    ("JPEG" : String) = "JPEG" ∧ ("RGB" : String) = restore_mode "JPEG" "P" :=
  ⟨(claim_C3_mode_format [] ⟨[], "a.jpg".data, OpenResult.ok ⟨500, 300, "P", "JPEG"⟩, true⟩
      ⟨500, 300, "P", "JPEG"⟩ (100, 100) ⟨[], [], "bottom-right", 1, 1⟩
      ["a.jpg".data] "RGB" "JPEG" rfl
      (by simp [process_image, wm_width_500_eval, wm_height_sq_eval, relpath,
        restore_jpeg_p_eval])).1,
   (claim_C3_mode_format [] ⟨[], "a.jpg".data, OpenResult.ok ⟨500, 300, "P", "JPEG"⟩, true⟩
      ⟨500, 300, "P", "JPEG"⟩ (100, 100) ⟨[], [], "bottom-right", 1, 1⟩
      ["a.jpg".data] "RGB" "JPEG" rfl
      (by simp [process_image, wm_width_500_eval, wm_height_sq_eval, relpath,
        restore_jpeg_p_eval])).2.1⟩

/-- C4: the walker selects a file exactly when its filename extension,
compared case-insensitively, is on the seven-entry allow-list; every
processed entry comes from a selected file in the walked list, every
selected file is processed, and a non-selected file is never processed
(hence never opened and never produces output). -/
theorem claim_C4_walker_filter (name : FileName) (fs : List FsPath)
    (files : List FileEntry) (wm : Nat × Nat) (args : Args) :
    (is_image_file name = true ↔ file_extension (lowerName name) ∈ IMAGE_EXTENSIONS) ∧
    (∀ pr ∈ (main_walk fs files wm args).2, pr.1 ∈ files ∧ is_image_file pr.1.name = true) ∧
    (∀ f ∈ files, is_image_file f.name = true →
      ∃ o, (f, o) ∈ (main_walk fs files wm args).2) ∧
    (∀ f ∈ files, is_image_file f.name = false →
      ∀ pr ∈ (main_walk fs files wm args).2, pr.1 ≠ f) := by
  refine ⟨is_image_file_iff_ext name, fun pr hpr => main_walk_pairs_mem pr hpr,
    fun f hf himg => main_walk_complete hf himg fs, ?_⟩
  intro f hf hnot pr hpr heq
  have h2 := (main_walk_pairs_mem pr hpr).2
  rw [heq, hnot] at h2
  simp at h2

theorem claim_C4_walker_filter_witness :
    (is_image_file "photo.JPG".data = true ↔
      file_extension (lowerName "photo.JPG".data) ∈ IMAGE_EXTENSIONS) ∧
    (∀ pr ∈ (main_walk ([] : List FsPath)
        [⟨[], "readme.txt".data, OpenResult.otherError, true⟩] (100, 100)
        ⟨[], [], "bottom-right", 1, 1⟩).2,
      pr.1 ≠ ⟨[], "readme.txt".data, OpenResult.otherError, true⟩) :=
  ⟨(claim_C4_walker_filter "photo.JPG".data []
      [⟨[], "readme.txt".data, OpenResult.otherError, true⟩] (100, 100)
      ⟨[], [], "bottom-right", 1, 1⟩).1,
   fun pr hpr =>
    (claim_C4_walker_filter "photo.JPG".data []
      [⟨[], "readme.txt".data, OpenResult.otherError, true⟩] (100, 100)
      ⟨[], [], "bottom-right", 1, 1⟩).2.2.2
      ⟨[], "readme.txt".data, OpenResult.otherError, true⟩ (by simp) (by decide) pr hpr⟩

/-- C6: a file whose processing raises (unreadable or corrupt image,
permission error, or any other exception) yields a logged error outcome
instead of a propagated exception, writes nothing, and the walk continues
over the remaining files; every process_image call ends in one of the three
logged outcomes. -/
theorem claim_C6_errors_nonfatal (fs : List FsPath) (f : FileEntry) (wm : Nat × Nat)
    (args : Args) (rest : List FileEntry)
    (herr : ∀ im, f.openResult ≠ OpenResult.ok im) :
    (process_image fs f wm args).2 = ProcOutcome.errorLogged ∧
    (process_image fs f wm args).1 = fs ∧
    (∀ g : FileEntry, (process_image fs g wm args).2 = ProcOutcome.errorLogged ∨
      (process_image fs g wm args).2 = ProcOutcome.skipped ∨
      ∃ p m fo, (process_image fs g wm args).2 = ProcOutcome.saved p m fo) ∧
    (is_image_file f.name = true →
      main_walk fs (f :: rest) wm args
        = ((main_walk fs rest wm args).1,
            (f, ProcOutcome.errorLogged) :: (main_walk fs rest wm args).2)) := by
  have htotal : ∀ g : FileEntry, (process_image fs g wm args).2 = ProcOutcome.errorLogged ∨
      (process_image fs g wm args).2 = ProcOutcome.skipped ∨
      ∃ p m fo, (process_image fs g wm args).2 = ProcOutcome.saved p m fo := by
    intro g
    cases hg : g.openResult with
    | ok im =>
      by_cases h1 : wm_width_of im.width args.size = 0
      · exact Or.inr (Or.inl (by simp [process_image, hg, h1]))
      · by_cases h2 : wm_height_of wm (wm_width_of im.width args.size) = 0
        · exact Or.inl (by simp [process_image, hg, h1, h2])
        · by_cases h3 : g.writeOk
          · refine Or.inr (Or.inr
              ⟨args.dest_dir ++ (relpath g.dir args.source_dir ++ [g.name]),
                restore_mode im.format im.mode, im.format, ?_⟩)
            simp [process_image, hg, h1, h2, h3]
          · exact Or.inl (by simp [process_image, hg, h1, h2, h3])
    | unidentifiedError => exact Or.inl (by simp [process_image, hg])
    | permissionError => exact Or.inl (by simp [process_image, hg])
    | otherError => exact Or.inl (by simp [process_image, hg])
  have hproc : process_image fs f wm args = (fs, ProcOutcome.errorLogged) := by
    cases hf : f.openResult with
    | ok im => exact absurd hf (herr im)
    | unidentifiedError => simp [process_image, hf]
    | permissionError => simp [process_image, hf]
    | otherError => simp [process_image, hf]
  refine ⟨by rw [hproc], by rw [hproc], htotal, ?_⟩
  intro himg
  simp only [main_walk, himg, if_true, hproc]

theorem claim_C6_errors_nonfatal_witness :
    (process_image ([] : List FsPath)
      ⟨[], "bad.png".data, OpenResult.unidentifiedError, true⟩ (100, 100)
      ⟨[], [], "bottom-right", 1, 1⟩).2 = ProcOutcome.errorLogged ∧
    main_walk ([] : List FsPath)
        [⟨[], "bad.png".data, OpenResult.unidentifiedError, true⟩] (100, 100)
        ⟨[], [], "bottom-right", 1, 1⟩
      = ([], [(⟨[], "bad.png".data, OpenResult.unidentifiedError, true⟩,
          ProcOutcome.errorLogged)]) :=
  ⟨(claim_C6_errors_nonfatal [] ⟨[], "bad.png".data, OpenResult.unidentifiedError, true⟩
      (100, 100) ⟨[], [], "bottom-right", 1, 1⟩ []
      (fun im h => OpenResult.noConfusion h)).1,
   (claim_C6_errors_nonfatal [] ⟨[], "bad.png".data, OpenResult.unidentifiedError, true⟩
      (100, 100) ⟨[], [], "bottom-right", 1, 1⟩ []
      (fun im h => OpenResult.noConfusion h)).2.2.2 (by decide)⟩

/-- C9: a saved output lands at the destination root extended by the source
file's directory taken relative to the source root, under its original
filename; directory creation has exist-ok semantics (creating twice equals
creating once), and a second identical walk over the produced directory
state leaves it unchanged. -/
theorem claim_C9_path_mirroring (fs : List FsPath) (f : FileEntry) (wm : Nat × Nat)
    (args : Args) (files : List FileEntry) (rel p : FsPath) (m fo : String)
    (hdir : f.dir = args.source_dir ++ rel)
    (hsave : (process_image fs f wm args).2 = ProcOutcome.saved p m fo) :
    p = args.dest_dir ++ (rel ++ [f.name]) ∧
    (∀ d : FsPath, makedirs (makedirs fs d) d = makedirs fs d) ∧
    (main_walk (main_walk fs files wm args).1 files wm args).1
      = (main_walk fs files wm args).1 := by
  refine ⟨?_, ?_, main_walk_idempotent files fs wm args⟩
  · cases hopen : f.openResult with
    | ok im =>
      by_cases h1 : wm_width_of im.width args.size = 0
      · simp [process_image, hopen, h1] at hsave
      · by_cases h2 : wm_height_of wm (wm_width_of im.width args.size) = 0
        · simp [process_image, hopen, h1, h2] at hsave
        · by_cases h3 : f.writeOk
          · simp only [process_image, hopen, h1, h2, h3, if_true, if_false, ite_false,
              ite_true, ProcOutcome.saved.injEq] at hsave
            obtain ⟨hp, -, -⟩ := hsave
            rw [← hp, hdir, relpath, List.drop_left, List.append_assoc]
          · simp [process_image, hopen, h1, h2, h3] at hsave
    | unidentifiedError => simp [process_image, hopen] at hsave
    | permissionError => simp [process_image, hopen] at hsave
    | otherError => simp [process_image, hopen] at hsave
  · intro d
    by_cases h : d ∈ fs
    · rw [makedirs_of_mem h, makedirs_of_mem h]
    · have hnew : makedirs fs d = d :: fs := if_neg h
      rw [hnew]
      exact makedirs_of_mem (List.mem_cons_self _ _)

theorem claim_C9_path_mirroring_witness :
    ["o".data, "d".data, "a.png".data]
        = ["o".data] ++ (["d".data] ++ ["a.png".data]) ∧
    (∀ d : FsPath, makedirs (makedirs [] d) d = makedirs [] d) :=
  ⟨(claim_C9_path_mirroring []
      ⟨["s".data, "d".data], "a.png".data, OpenResult.ok ⟨500, 300, "RGBA", "PNG"⟩, true⟩
      (100, 100) ⟨["s".data], ["o".data], "bottom-right", 1, 1⟩ [] ["d".data]
      ["o".data, "d".data, "a.png".data] "RGBA" "PNG" rfl
      (by simp [process_image, wm_width_500_eval, wm_height_sq_eval, relpath,
        restore_png_rgba_eval])).1,
   (claim_C9_path_mirroring []
      ⟨["s".data, "d".data], "a.png".data, OpenResult.ok ⟨500, 300, "RGBA", "PNG"⟩, true⟩
      (100, 100) ⟨["s".data], ["o".data], "bottom-right", 1, 1⟩ [] ["d".data]
      ["o".data, "d".data, "a.png".data] "RGBA" "PNG" rfl
      (by simp [process_image, wm_width_500_eval, wm_height_sq_eval, relpath,
        restore_png_rgba_eval])).2.1⟩

/-- C10: the zero-size guard only checks the width: there is a wide, short
watermark and a source image for which the computed width is nonzero (so the
wm_width == 0 skip does not fire) while the computed height is zero, and
process_image ends in the logged-error branch (Pillow's resize rejects a
zero dimension), not in the skip path. -/
theorem claim_C10_zero_height_gap :
    ∃ (f : FileEntry) (im : SrcImage) (wm : Nat × Nat) (args : Args),
      f.openResult = OpenResult.ok im ∧ 0 < args.size ∧ args.size ≤ 1 ∧
      wm.2 < wm.1 ∧ 0 < wm.2 ∧
      wm_width_of im.width args.size ≠ 0 ∧
      wm_height_of wm (wm_width_of im.width args.size) = 0 ∧
      (process_image [] f wm args).2 = ProcOutcome.errorLogged ∧
      (process_image [] f wm args).2 ≠ ProcOutcome.skipped := by
  have hw : wm_width_of 50 1 = 50 := by norm_num [wm_width_of, py_int]
  have hh : wm_height_of (100, 1) 50 = 0 := by norm_num [wm_height_of, py_int]
  refine ⟨⟨[], "a.png".data, OpenResult.ok ⟨50, 50, "RGBA", "PNG"⟩, true⟩,
    ⟨50, 50, "RGBA", "PNG"⟩, (100, 1), ⟨[], [], "bottom-right", 1, 1⟩,
    rfl, by decide, by decide, by decide, by decide, ?_, ?_, ?_, ?_⟩
  · rw [show (⟨50, 50, "RGBA", "PNG"⟩ : SrcImage).width = 50 from rfl, hw]
    decide
  · rw [show (⟨50, 50, "RGBA", "PNG"⟩ : SrcImage).width = 50 from rfl, hw, hh]
  · simp [process_image, hw, hh]
  · simp [process_image, hw, hh]

/-- Validation reduction helpers for the exit-code claim. -/
theorem validate_cases (env : Env) :
    validate_arguments env = Except.ok () ∨
      validate_arguments env = Except.error (PyTerm.sysExit 1) := by
  unfold validate_arguments
  split
  · exact Or.inr rfl
  split
  · exact Or.inr rfl
  split
  · exact Or.inr rfl
  split
  · exact Or.inr rfl
  · exact Or.inl rfl

theorem validate_ok_iff (env : Env) :
    validate_arguments env = Except.ok () ↔ valid_args env := by
  unfold validate_arguments valid_args
  by_cases h1 : env.source_is_dir = true <;>
    by_cases h2 : env.watermark_is_file = true <;>
    by_cases h3 : (0 ≤ env.args.opacity ∧ env.args.opacity ≤ 1) <;>
    by_cases h4 : (0 < env.args.size ∧ env.args.size ≤ 1) <;>
    simp [h1, h2, h3, h4]

theorem validate_err (env : Env) (h : ¬ valid_args env) :
    validate_arguments env = Except.error (PyTerm.sysExit 1) := by
  rcases validate_cases env with hok | herr
  · exact absurd ((validate_ok_iff env).mp hok) h
  · exact herr

/-- C7: the process exits 0 exactly when the arguments validate, the
watermark loads, and neither an interrupt nor an unhandled exception hits
the run (skipped files included); it exits 1 in every other case, and a
validation failure means no file is ever processed. -/
theorem claim_C7_exit_codes (env : Env) :
    (top_level env =
      if valid_args env ∧ env.wmOpen.isSome ∧ env.interrupted = false ∧
          env.unexpected = false
      then 0 else 1) ∧
    (¬ valid_args env → processed env = []) ∧
    (env.wmOpen = none → top_level env = 1) ∧
    (env.interrupted = true → top_level env = 1) ∧
    (env.unexpected = true → top_level env = 1) := by
  by_cases hv : valid_args env
  · have hok : validate_arguments env = Except.ok () := (validate_ok_iff env).mpr hv
    have h3 := hv.2.2.1
    cases hwm : env.wmOpen with
    | none =>
      have hm : main env = Except.error (PyTerm.sysExit 1) := by
        simp [main, hok, load_watermark, hwm]
      refine ⟨?_, ?_, ?_, ?_, ?_⟩
      · rw [if_neg (by simp)]
        simp [top_level, hm]
      · intro h
        exact absurd hv h
      · intro _
        simp [top_level, hm]
      · intro _
        simp [top_level, hm]
      · intro _
        simp [top_level, hm]
    | some wm =>
      have hload : load_watermark env = Except.ok wm := by
        simp [load_watermark, hwm, h3.1, h3.2]
      cases hint : env.interrupted with
      | true =>
        have hm : main env = Except.error PyTerm.keyboardInterrupt := by
          simp [main, hok, hload, hint]
        refine ⟨?_, ?_, ?_, ?_, ?_⟩
        · rw [if_neg (by simp)]
          simp [top_level, hm]
        · intro h
          exact absurd hv h
        · intro h
          exact absurd h (by simp)
        · intro _
          simp [top_level, hm]
        · intro _
          simp [top_level, hm]
      | false =>
        cases hune : env.unexpected with
        | true =>
          have hm : main env = Except.error PyTerm.unhandled := by
            simp [main, hok, hload, hint, hune]
          refine ⟨?_, ?_, ?_, ?_, ?_⟩
          · rw [if_neg (by simp)]
            simp [top_level, hm]
          · intro h
            exact absurd hv h
          · intro h
            exact absurd h (by simp)
          · intro h
            exact Bool.noConfusion h
          · intro _
            simp [top_level, hm]
        | false =>
          have hm : main env = Except.ok (main_walk [] env.files wm env.args) := by
            simp [main, hok, hload, hint, hune]
          refine ⟨?_, ?_, ?_, ?_, ?_⟩
          · rw [if_pos ⟨hv, by simp, rfl, rfl⟩]
            simp [top_level, hm]
          · intro h
            exact absurd hv h
          · intro h
            exact absurd h (by simp)
          · intro h
            exact Bool.noConfusion h
          · intro h
            exact Bool.noConfusion h
  · have herr : validate_arguments env = Except.error (PyTerm.sysExit 1) := validate_err env hv
    have hm : main env = Except.error (PyTerm.sysExit 1) := by
      simp [main, herr]
    refine ⟨?_, ?_, ?_, ?_, ?_⟩
    · rw [if_neg fun hc => hv hc.1]
      simp [top_level, hm]
    · intro _
      simp [processed, hm]
    · intro _
      simp [top_level, hm]
    · intro _
      simp [top_level, hm]
    · intro _
      simp [top_level, hm]

theorem claim_C7_exit_codes_witness :
    processed ⟨false, true, ⟨[], [], "bottom-right", 1, 1⟩, some (100, 100), [],
        false, false⟩ = [] ∧
    top_level ⟨false, true, ⟨[], [], "bottom-right", 1, 1⟩, some (100, 100), [],
        false, false⟩ = 1 :=
  ⟨(claim_C7_exit_codes ⟨false, true, ⟨[], [], "bottom-right", 1, 1⟩, some (100, 100), [],
        false, false⟩).2.1 (by decide),
   by
    rw [(claim_C7_exit_codes ⟨false, true, ⟨[], [], "bottom-right", 1, 1⟩, some (100, 100),
        [], false, false⟩).1, if_neg (by decide)]⟩

end Watermark
